import Mathlib

/-!
# ownCloud Music front end: route table and the `listHeading` directive

Shallow embedding of `src/js/app/config/app.js` (the route table) and of
`src/js/app/directives/listheading.js` (the lazily rendered list heading).

The host DOM element is a list of child nodes, the jQuery delegations on it are
a list of records, and every call the directive makes to a collaborator (a
handler of the heading data, the drag-transfer object, the root scope) is
recorded in an effect log.
-/

namespace Music

/-! ## Route table (`app.js`) -/

/-- A route definition object: the pair handed to `$routeProvider.when`. -/
structure RouteConfig where
  controller : String
  templateUrl : String
deriving DecidableEq, Repr

def albumsControllerConfig : RouteConfig :=
  { controller := "AlbumsViewController", templateUrl := "albumsview.html" }

def playlistControllerConfig : RouteConfig :=
  { controller := "PlaylistViewController", templateUrl := "playlistview.html" }

def allTracksControllerConfig : RouteConfig :=
  { controller := "AllTracksViewController", templateUrl := "alltracksview.html" }

def foldersControllerConfig : RouteConfig :=
  { controller := "FoldersViewController", templateUrl := "foldersview.html" }

def genresControllerConfig : RouteConfig :=
  { controller := "GenresViewController", templateUrl := "genresview.html" }

def settingsControllerConfig : RouteConfig :=
  { controller := "SettingsViewController", templateUrl := "settingsview.html" }

/-- The ten `.when(pattern, config)` registrations, in source order. -/
def routes : List (String × RouteConfig) :=
  [ ("/",                     albumsControllerConfig),
    ("/artist/:id",           albumsControllerConfig),
    ("/album/:id",            albumsControllerConfig),
    ("/track/:id",            albumsControllerConfig),
    ("/file/:id",             albumsControllerConfig),
    ("/playlist/:playlistId", playlistControllerConfig),
    ("/alltracks",            allTracksControllerConfig),
    ("/folders",              foldersControllerConfig),
    ("/genres",               genresControllerConfig),
    ("/settings",             settingsControllerConfig) ]

/-- Split a character sequence at every `/`; the pieces never contain `/`. -/
def splitSlash : List Char → List (List Char)
  | [] => [[]]
  | c :: cs =>
    if c = '/' then [] :: splitSlash cs
    else
      match splitSlash cs with
      | [] => [[c]]
      | s :: ss => (c :: s) :: ss

/-- One pattern segment against one path segment, as the routing library
compiles it: a segment `:name` becomes the group `([^/]+)` (any non-empty
piece), every other segment is matched literally and case-sensitively. -/
def segMatches (pat seg : List Char) : Bool :=
  match pat with
  | ':' :: _ => !seg.isEmpty
  | _ => pat == seg

/-- Segment-wise match of a whole pattern: the compiled expression is anchored
at both ends, so the numbers of segments agree. -/
def segsMatch : List (List Char) → List (List Char) → Bool
  | [], [] => true
  | p :: ps, s :: ss => segMatches p s && segsMatch ps ss
  | _, _ => false

/-- Does the concrete path match the route pattern?  The routing library
(ngRoute) is an external collaborator; this is its matching rule for patterns
whose parameters fill whole segments, which all ten patterns are. -/
def pathMatches (pattern path : String) : Bool :=
  segsMatch (splitSlash pattern.data) (splitSlash path.data)

/-- Route resolution: the first registered pattern that matches decides. -/
def resolve (path : String) : Option RouteConfig :=
  (routes.find? (fun r => pathMatches r.1 path)).map (fun r => r.2)

/-- The patterns registered in the table that match a path. -/
def matchingPatterns (path : String) : List String :=
  (routes.filter (fun r => pathMatches r.1 path)).map (fun r => r.1)

/-- The controller/template pair documented for each pattern, written from the
words of the specification (not from the table). -/
def documentedPair (pattern : String) : Option (String × String) :=
  if pattern = "/" ∨ pattern = "/artist/:id" ∨ pattern = "/album/:id"
      ∨ pattern = "/track/:id" ∨ pattern = "/file/:id" then
    some ("AlbumsViewController", "albumsview.html")
  else if pattern = "/playlist/:playlistId" then
    some ("PlaylistViewController", "playlistview.html")
  else if pattern = "/alltracks" then
    some ("AllTracksViewController", "alltracksview.html")
  else if pattern = "/folders" then
    some ("FoldersViewController", "foldersview.html")
  else if pattern = "/genres" then
    some ("GenresViewController", "genresview.html")
  else if pattern = "/settings" then
    some ("SettingsViewController", "settingsview.html")
  else none

/-! ## The `listHeading` directive (`listheading.js`) -/

/-- A DOM node below the host element: a text node, or an element with its tag
name, its class name, its other attributes in the order they were set, and its
children.  Elements come from `document.createElement` in `render` and from the
browser parsing markup assigned to `innerHTML`. -/
inductive Node where
  | text (content : String)
  | elem (tag : String) (className : String) (attrs : List (String × String))
      (children : List Node)
deriving Repr

/-- Child nodes of a node. -/
def Node.children : Node → List Node
  | .text _ => []
  | .elem _ _ _ cs => cs

/-- Tag name of an element node. -/
def Node.tag : Node → Option String
  | .text _ => none
  | .elem t _ _ _ => some t

/-- Attributes of an element node. -/
def Node.attrs : Node → List (String × String)
  | .text _ => []
  | .elem _ _ as _ => as

/-- Value of the first attribute with the given name. -/
def Node.getAttribute (n : Node) (name : String) : Option String :=
  (n.attrs.find? (fun a => a.1 == name)).map (fun a => a.2)

/-- A JavaScript number, an IEEE 754 double kept as its 64-bit pattern.  The
directive only copies numbers, it never computes with them. -/
structure Double where
  bits : Nat
deriving DecidableEq, Repr

/-- The literal `{x: e.offsetX, y: e.offsetY}`; a field is `none` when the
event property is `undefined`. -/
structure Offset where
  x : Option Double
  y : Option Double
deriving DecidableEq, Repr

/-- The value returned by the call `fn(arg)` of a collaborator function. -/
structure Returned where
  fn : Nat
  arg : Option Nat
deriving DecidableEq, Repr

/-- The object `transferDataObject`. -/
structure TransferData where
  data : Returned
  channel : String
  offset : Offset
deriving DecidableEq, Repr

/-- What the directive takes from its surroundings: `playText`, `playIconSrc`
and `detailsText` are fixed when the directive factory runs (translation
catalogue and file-path helper); `parse` is the browser's fragment parser behind
an assignment to `innerHTML` (the heading element and a `span` are parsed in the
same mode); `toJson` is `angular.toJson` on the transfer object.  None of them
is part of this repository, so every result holds for all of them. -/
structure Env where
  playText : String
  playIconSrc : String
  detailsText : String
  parse : String → List Node
  toJson : TransferData → String

/-- The `data` object built in `post`, without `element` and `scope`, which are
the mutable part and live in `Widget`.  `heading` is the markup assigned to
`innerHTML`; `headingExt` and `tooltip` are `none` when the attribute evaluates
to `undefined`; each handler is `none` when its attribute evaluates to
`undefined` and otherwise names a function; `model` is `none` for `undefined`
and otherwise a reference. -/
structure HeadingData where
  heading : String
  headingExt : Option String
  tooltip : Option String
  showPlayIcon : Bool
  model : Option Nat
  onClick : Option Nat
  onDetailsClick : Option Nat
  getDraggable : Option Nat
deriving DecidableEq, Repr

/-- JavaScript truthiness of an optional string: `undefined` and the empty
string are falsy. -/
def truthy : Option String → Bool
  | none => false
  | some s => s != ""

/-- How `setAttribute` stores a boolean. -/
def boolAttr (b : Bool) : String := if b then "true" else "false"

/-- Inner function `render` of `setup`: the children of the document fragment. -/
def render (env : Env) (data : HeadingData) : List Node :=
  let titleAttr : List (String × String) :=
    if truthy data.tooltip then [("title", data.tooltip.getD "")] else []
  let outerAttrs := ("draggable", boolAttr data.getDraggable.isSome) :: titleAttr
  let innerSpan := Node.elem "span" "" [] (env.parse data.heading)
  let extSpan : List Node :=
    if truthy data.headingExt then
      [Node.elem "span" "muted" [] (env.parse (data.headingExt.getD ""))]
    else []
  let playIcon : List Node :=
    if data.showPlayIcon then
      [Node.elem "img" "play svg" [("alt", env.playText), ("src", env.playIconSrc)] []]
    else []
  let outerSpan := Node.elem "span" "" outerAttrs (innerSpan :: (extSpan ++ playIcon))
  let detailsButton : List Node :=
    if data.onDetailsClick.isSome then
      [Node.elem "button" "icon-details" [("title", env.detailsText)] []]
    else []
  outerSpan :: detailsButton

/-- The three event types the directive delegates. -/
inductive EventType where
  | click | dragstart | dragend
deriving DecidableEq, Repr

/-- The four callbacks `setup` passes to `ngElem.on`, in source order. -/
inductive HandlerKind where
  | spanClick | buttonClick | spanDragStart | spanDragEnd
deriving DecidableEq, Repr

/-- One `ngElem.on(type, selector, handler)` registration. -/
structure Delegation where
  eventType : EventType
  selector : String
  handler : HandlerKind
deriving DecidableEq, Repr

/-- Mutable state of one widget: the children of `data.element`, the jQuery
delegations bound on it, and the number of `$destroy` listeners `setup` has
registered on `data.scope`. -/
structure Widget where
  children : List Node
  delegations : List Delegation
  destroyListeners : Nat
deriving Repr

/-- `removeChildNodes`: drop the first child until none is left. -/
def removeChildNodes : List Node → List Node
  | [] => []
  | _ :: rest => removeChildNodes rest

/-- The four registrations of `setup`, in source order. -/
def setupDelegations : List Delegation :=
  [ { eventType := .click,     selector := "span",   handler := .spanClick },
    { eventType := .click,     selector := "button", handler := .buttonClick },
    { eventType := .dragstart, selector := "span",   handler := .spanDragStart },
    { eventType := .dragend,   selector := "span",   handler := .spanDragEnd } ]

/-- `setup(data)`: clear the host, append the rendered fragment, register the
four delegations and one more `$destroy` listener. -/
def setup (env : Env) (data : HeadingData) (w : Widget) : Widget :=
  { children := removeChildNodes w.children ++ render env data,
    delegations := w.delegations ++ setupDelegations,
    destroyListeners := w.destroyListeners + 1 }

/-- `tearDown(data)`: `$(data.element).off()` removes every delegation. -/
def tearDown (w : Widget) : Widget :=
  { w with delegations := [] }

/-- `setupPlaceholder(data)`: `data.element.innerHTML = data.heading`. -/
def setupPlaceholder (env : Env) (data : HeadingData) (w : Widget) : Widget :=
  { w with children := env.parse data.heading }

/-- The `post` link function: a fresh heading element with the placeholder. -/
def post (env : Env) (data : HeadingData) : Widget :=
  setupPlaceholder env data { children := [], delegations := [], destroyListeners := 0 }

/-- The two callbacks registered with the in-view observer. -/
inductive ViewEvent where
  | enterView | leaveView
deriving DecidableEq, Repr

/-- `onEnterView` and `onLeaveView`. -/
def onView (env : Env) (data : HeadingData) (w : Widget) : ViewEvent → Widget
  | .enterView => setup env data w
  | .leaveView => setupPlaceholder env data (tearDown w)

/-- The widget after linking and a sequence of observer callbacks. -/
def run (env : Env) (data : HeadingData) (evs : List ViewEvent) : Widget :=
  evs.foldl (onView env data) (post env data)

/-- Destruction of the enclosing scope: every registered `$destroy` listener
runs `tearDown(data)`, and the scope drops its listeners. -/
def scopeDestroy (w : Widget) : Widget :=
  { (Nat.iterate tearDown w.destroyListeners w) with destroyListeners := 0 }

/-! ### Events, handlers and jQuery's delegated dispatch -/

/-- A jQuery event object as the handlers see it.  `target` is the path of
child indices from the host element down to the event target (`[]` is the host
itself); `offsetX` and `offsetY` are `none` when the property is `undefined`;
`originalEvent` is `none` for a synthetic event and otherwise holds the native
event's `dataTransfer` (an object reference, or `none` when the native event
has none); `dataTransfer` is the property of the jQuery event itself. -/
structure Event where
  eventType : EventType
  target : List Nat
  offsetX : Option Double
  offsetY : Option Double
  originalEvent : Option (Option Nat)
  dataTransfer : Option Nat
deriving DecidableEq, Repr

/-- Calls the directive makes to its collaborators, in program order. -/
inductive Effect where
  /-- The call `data.onClick(data.model)`. -/
  | onClick (fn : Nat) (model : Option Nat)
  /-- The call `data.onDetailsClick(data.model)`. -/
  | onDetailsClick (fn : Nat) (model : Option Nat)
  /-- The call `data.getDraggable(data.model)`. -/
  | getDraggable (fn : Nat) (model : Option Nat)
  /-- The call `e.dataTransfer.setData(key, text)` on the transfer object. -/
  | setData (transfer : Nat) (key : String) (text : String)
  /-- The assignment `e.dataTransfer.effectAllowed = value`. -/
  | effectAllowed (transfer : Nat) (value : String)
  /-- The call `$rootScope.$broadcast(name, e, channel [, payload])`. -/
  | broadcast (name : String) (e : Event) (channel : String) (payload : Option TransferData)
deriving DecidableEq, Repr

/-- The exception a handler body can raise: calling `undefined`, or reading a
property of `undefined`. -/
inductive Error where
  | typeError (what : String)
deriving DecidableEq, Repr

/-- Result of running handlers: the event object (handlers may assign to it),
the effects performed, and the exception that ended the run, if any. -/
structure Outcome where
  event : Event
  effects : List Effect
  error : Option Error
deriving DecidableEq, Repr

/-- The bodies of the four callbacks of `setup`. -/
def runHandler (env : Env) (data : HeadingData) (e : Event) : HandlerKind → Outcome
  | .spanClick =>
    match data.onClick with
    | some f => { event := e, effects := [Effect.onClick f data.model], error := none }
    | none => { event := e, effects := [], error := some (.typeError "data.onClick") }
  | .buttonClick =>
    match data.onDetailsClick with
    | some f => { event := e, effects := [Effect.onDetailsClick f data.model], error := none }
    | none => { event := e, effects := [], error := some (.typeError "data.onDetailsClick") }
  | .spanDragStart =>
    let e1 : Event :=
      match e.originalEvent with
      | some transfer => { e with dataTransfer := transfer }
      | none => e
    let offset : Offset := { x := e1.offsetX, y := e1.offsetY }
    match data.getDraggable with
    | none => { event := e1, effects := [], error := some (.typeError "data.getDraggable") }
    | some g =>
      let transferDataObject : TransferData :=
        { data := { fn := g, arg := data.model }, channel := "defaultchannel", offset := offset }
      let transferDataText := env.toJson transferDataObject
      match e1.dataTransfer with
      | none =>
        { event := e1, effects := [Effect.getDraggable g data.model],
          error := some (.typeError "e.dataTransfer") }
      | some dt =>
        { event := e1,
          effects :=
            [ Effect.getDraggable g data.model,
              Effect.setData dt "text" transferDataText,
              Effect.effectAllowed dt "copyMove",
              Effect.broadcast "ANGULAR_DRAG_START" e1 "defaultchannel"
                (some transferDataObject) ],
          error := none }
  | .spanDragEnd =>
    { event := e, effects := [Effect.broadcast "ANGULAR_DRAG_END" e "defaultchannel" none],
      error := none }

/-- The nodes from the event target up to, and excluding, the host element:
target first.  `none` when the path names no node below the host. -/
def chain : List Node → List Nat → Option (List Node)
  | _, [] => some []
  | cs, i :: rest =>
    match cs[i]? with
    | none => none
    | some n => (chain n.children rest).map (fun below => below ++ [n])

/-- Does the node match a tag selector such as `span` or `button`? -/
def Node.matchesSelector (n : Node) (selector : String) : Bool :=
  n.tag == some selector

/-- The delegated handlers jQuery collects for one node of the chain: every
delegation of the event's type whose selector the node matches, in
registration order. -/
def handlersFor (delegations : List Delegation) (t : EventType) (n : Node) :
    List HandlerKind :=
  (delegations.filter (fun g => g.eventType == t && n.matchesSelector g.selector)).map
    (fun g => g.handler)

/-- The handler queue of jQuery's delegated dispatch: it walks from the target
towards the host and, at each node, queues the matching delegations. -/
def handlerQueue (w : Widget) (e : Event) : List HandlerKind :=
  match chain w.children e.target with
  | none => []
  | some nodes => (nodes.map (handlersFor w.delegations e.eventType)).flatten

/-- Run a handler queue in order on the shared event object; an exception
leaves the dispatch and the remaining handlers do not run. -/
def runQueue (env : Env) (data : HeadingData) : Event → List HandlerKind → Outcome
  | e, [] => { event := e, effects := [], error := none }
  | e, h :: hs =>
    let o := runHandler env data e h
    match o.error with
    | some _ => o
    | none =>
      let r := runQueue env data o.event hs
      { event := r.event, effects := o.effects ++ r.effects, error := r.error }

/-- Deliver an event to the host element's delegations. -/
def dispatch (env : Env) (data : HeadingData) (w : Widget) (e : Event) : Outcome :=
  runQueue env data e (handlerQueue w e)

/-- Number of enter-view events since the most recent leave-view, or since
linking when there was none. -/
def trailingEnters (evs : List ViewEvent) : Nat :=
  (evs.reverse.takeWhile (fun e => e == ViewEvent.enterView)).length

/-- The placeholder content: what assigning the heading to `innerHTML` leaves
below the host element. -/
def placeholder (env : Env) (data : HeadingData) : List Node := env.parse data.heading

/-- The strictly alternating sequence enter, leave, enter, ... of length `n`. -/
def alternating : Nat → List ViewEvent
  | 0 => []
  | n + 1 => alternating n ++ [if n % 2 = 0 then ViewEvent.enterView else ViewEvent.leaveView]

/-- Can two patterns match a common path?  They can when they have the same
number of segments and, position by position, the segments are equal or one of
them is a parameter. -/
def overlap : List (List Char) → List (List Char) → Bool
  | [], [] => true
  | p :: ps, q :: qs =>
    ((p.head? == some ':') || (q.head? == some ':') || p == q) && overlap ps qs
  | _, _ => false

mutual
/-- Number of play icon elements (an `img` of class `play svg`, as `render`
creates one) in the subtree of a node, the node included. -/
def Node.playIcons : Node → Nat
  | .text _ => 0
  | .elem tag cls _ cs =>
    (if tag = "img" ∧ cls = "play svg" then 1 else 0) + playIconsIn cs
/-- Number of play icon elements in a list of sibling subtrees. -/
def playIconsIn : List Node → Nat
  | [] => 0
  | n :: ns => n.playIcons + playIconsIn ns
end

/-- The drag-transfer object the drag-start handler ends up using: the native
event's when there is a native event, the jQuery event's own otherwise. -/
def Event.transfer (e : Event) : Option Nat :=
  match e.originalEvent with
  | some t => t
  | none => e.dataTransfer

/-- The node a path of child indices names below the host element. -/
def nodeAt : List Node → List Nat → Option Node
  | _, [] => none
  | cs, [i] => cs[i]?
  | cs, i :: rest =>
    match cs[i]? with
    | none => none
    | some n => nodeAt n.children rest

/-- Number of `span` elements on the way from the target up to the host. -/
def spansOnPath (w : Widget) (target : List Nat) : Nat :=
  match chain w.children target with
  | none => 0
  | some nodes => (nodes.filter (fun n => n.matchesSelector "span")).length

/-- Number of `button` elements on the way from the target up to the host. -/
def buttonsOnPath (w : Widget) (target : List Nat) : Nat :=
  match chain w.children target with
  | none => 0
  | some nodes => (nodes.filter (fun n => n.matchesSelector "button")).length

/-- Position of the play icon below the outer span. -/
def playIconPath (data : HeadingData) : List Nat :=
  [0, if truthy data.headingExt then 2 else 1]

/-- The effects of one run of the drag-start handler with provider `g` and
transfer object `dt` on the event `e1`. -/
def dragStartEffects (env : Env) (data : HeadingData) (g dt : Nat) (e1 : Event) :
    List Effect :=
  [ Effect.getDraggable g data.model,
    Effect.setData dt "text"
      (env.toJson { data := { fn := g, arg := data.model }, channel := "defaultchannel",
                    offset := { x := e1.offsetX, y := e1.offsetY } }),
    Effect.effectAllowed dt "copyMove",
    Effect.broadcast "ANGULAR_DRAG_START" e1 "defaultchannel"
      (some { data := { fn := g, arg := data.model }, channel := "defaultchannel",
              offset := { x := e1.offsetX, y := e1.offsetY } }) ]

/-! ### Sample inputs -/

/-- Markup of a heading that itself holds a play icon image. -/
def iconMarkup : String := "<img class=\"play svg\">"

/-- Markup of a heading that holds a button. -/
def buttonMarkup : String := "<button>more</button>"

/-- What the fragment parser yields for the markups of the examples: the two
markups above become their element, the empty string nothing, and any other
sample text (none contains markup) one text node. -/
def sampleParse (s : String) : List Node :=
  if s = iconMarkup then [Node.elem "img" "play svg" [] []]
  else if s = buttonMarkup then [Node.elem "button" "" [] [Node.text "more"]]
  else if s = "" then []
  else [Node.text s]

/-- A stand-in serializer for the examples: the provider, the channel and the
two offsets, in the order of the object's fields. -/
def sampleToJson (o : TransferData) : String :=
  String.intercalate ","
    [ toString o.data.fn, o.channel,
      toString ((o.offset.x.map (fun d => d.bits)).getD 0),
      toString ((o.offset.y.map (fun d => d.bits)).getD 0) ]

/-- Sample surroundings of the directive. -/
def sampleEnv : Env :=
  { playText := "Play", playIconSrc := "play-big.svg", detailsText := "Details",
    parse := sampleParse, toJson := sampleToJson }

/-- A fully configured heading. -/
def sampleData : HeadingData :=
  { heading := "Abbey Road", headingExt := some "1969", tooltip := some "The Beatles",
    showPlayIcon := true, model := some 7, onClick := some 1, onDetailsClick := some 2,
    getDraggable := some 3 }

/-- A heading whose `on-click` attribute is absent. -/
def dataWithoutOnClick : HeadingData := { sampleData with onClick := none }

/-- A heading whose `get-draggable` attribute is absent. -/
def dataWithoutGetDraggable : HeadingData := { sampleData with getDraggable := none }

/-- A heading with only the text and the click handler: no secondary text, no
tooltip, no play icon, no model, no details handler, no drag-payload provider. -/
def sparseData : HeadingData :=
  { heading := "Abbey Road", headingExt := none, tooltip := none, showPlayIcon := false,
    model := none, onClick := some 1, onDetailsClick := none, getDraggable := none }

/-- The sparse heading with a button written in its markup. -/
def buttonHeadingData : HeadingData := { sparseData with heading := buttonMarkup }

/-- The full heading with a play icon written in its markup. -/
def iconHeadingData : HeadingData := { sampleData with heading := iconMarkup }

/-- A native event of the given type on the given target, carrying transfer
object 9 and pointer offset (3, 4) given as the bit patterns of the doubles. -/
def sampleEvent (t : EventType) (target : List Nat) : Event :=
  { eventType := t, target := target,
    offsetX := some { bits := 4613937818241073152 },
    offsetY := some { bits := 4616189618054758400 },
    originalEvent := some (some 9), dataTransfer := none }

/-- A synthetic drag-start on the outer span: no native event behind it, no
offsets and no transfer object on it. -/
def syntheticDragStart : Event :=
  { eventType := EventType.dragstart, target := [0], offsetX := none, offsetY := none,
    originalEvent := none, dataTransfer := none }

/-! ## Shared lemmas -/

theorem removeChildNodes_eq_nil (cs : List Node) : removeChildNodes cs = [] := by
  induction cs with
  | nil => rfl
  | cons _ rest ih => simpa [removeChildNodes] using ih

theorem run_snoc (env : Env) (data : HeadingData) (evs : List ViewEvent) (e : ViewEvent) :
    run env data (evs ++ [e]) = onView env data (run env data evs) e := by
  simp [run, List.foldl_append]

theorem trailingEnters_snoc_enter (evs : List ViewEvent) :
    trailingEnters (evs ++ [ViewEvent.enterView]) = trailingEnters evs + 1 := by
  simp [trailingEnters, List.takeWhile]

theorem trailingEnters_snoc_leave (evs : List ViewEvent) :
    trailingEnters (evs ++ [ViewEvent.leaveView]) = 0 := by
  simp [trailingEnters, List.takeWhile]

theorem run_children (env : Env) (data : HeadingData) (evs : List ViewEvent) :
    (run env data evs).children =
      if trailingEnters evs = 0 then placeholder env data else render env data := by
  induction evs using List.reverseRecOn with
  | nil => rfl
  | append_singleton evs e _ =>
    cases e with
    | enterView =>
      simp [run_snoc, onView, setup, removeChildNodes_eq_nil, trailingEnters_snoc_enter]
    | leaveView =>
      simp [run_snoc, onView, setupPlaceholder, tearDown, trailingEnters_snoc_leave,
        placeholder]

theorem run_delegations (env : Env) (data : HeadingData) (evs : List ViewEvent) :
    (run env data evs).delegations =
      (List.replicate (trailingEnters evs) setupDelegations).flatten := by
  induction evs using List.reverseRecOn with
  | nil => rfl
  | append_singleton evs e ih =>
    cases e with
    | enterView =>
      simp [run_snoc, onView, setup, trailingEnters_snoc_enter, ih, List.replicate_succ']
    | leaveView =>
      simp [run_snoc, onView, setupPlaceholder, tearDown, trailingEnters_snoc_leave]

theorem run_destroyListeners (env : Env) (data : HeadingData) (evs : List ViewEvent) :
    trailingEnters evs ≤ (run env data evs).destroyListeners := by
  induction evs using List.reverseRecOn with
  | nil => simp [trailingEnters]
  | append_singleton evs e ih =>
    cases e with
    | enterView =>
      simp [run_snoc, onView, setup, trailingEnters_snoc_enter, ih]
    | leaveView =>
      simp [run_snoc, onView, setupPlaceholder, tearDown, trailingEnters_snoc_leave]

theorem iterate_tearDown_delegations (n : Nat) (w : Widget) :
    (Nat.iterate tearDown (n + 1) w).delegations = [] := by
  induction n generalizing w with
  | zero => rfl
  | succ n ih => exact ih (tearDown w)

theorem scopeDestroy_run_delegations (env : Env) (data : HeadingData)
    (evs : List ViewEvent) :
    (scopeDestroy (run env data evs)).delegations = [] := by
  unfold scopeDestroy
  cases h : (run env data evs).destroyListeners with
  | zero =>
    have h0 : trailingEnters evs = 0 := by
      have := run_destroyListeners env data evs
      omega
    simp [run_delegations, h0]
  | succ n => simpa using iterate_tearDown_delegations n (run env data evs)

theorem handlerQueue_of_no_delegations (w : Widget) (e : Event)
    (h : w.delegations = []) : handlerQueue w e = [] := by
  unfold handlerQueue
  cases chain w.children e.target with
  | none => rfl
  | some nodes =>
    simp only [h]
    induction nodes with
    | nil => rfl
    | cons n ns ih => simp [handlersFor]

theorem run_enter_children (env : Env) (data : HeadingData) (evs : List ViewEvent) :
    (run env data (evs ++ [ViewEvent.enterView])).children = render env data := by
  simp [run_children, trailingEnters_snoc_enter]

theorem run_enter_delegations (env : Env) (data : HeadingData) (evs : List ViewEvent) :
    (run env data (evs ++ [ViewEvent.enterView])).delegations =
      (List.replicate (trailingEnters evs + 1) setupDelegations).flatten := by
  simp [run_delegations, trailingEnters_snoc_enter]

theorem handlersFor_replicate (k : Nat) (t : EventType) (n : Node) :
    handlersFor ((List.replicate k setupDelegations).flatten) t n =
      (List.replicate k (handlersFor setupDelegations t n)).flatten := by
  induction k with
  | zero => rfl
  | succ k ih =>
    simp only [List.replicate_succ, List.flatten_cons]
    rw [← ih]
    simp [handlersFor]

theorem playIconsIn_append (as bs : List Node) :
    playIconsIn (as ++ bs) = playIconsIn as + playIconsIn bs := by
  induction as with
  | nil => simp [playIconsIn]
  | cons a as ih => simp [playIconsIn, ih, Nat.add_assoc]

theorem placeholder_ne_render (env : Env) (data : HeadingData) :
    placeholder env data ≠ render env data := by
  intro h
  have hs := congrArg sizeOf h
  simp [placeholder, render] at hs
  omega

/-! ## Route table -/

theorem segMatches_literal (p s : List Char) (hp : (p.head? == some ':') = false)
    (h : segMatches p s = true) : p = s := by
  unfold segMatches at h
  split at h
  · simp at hp
  · simpa using h

theorem overlap_of_common_match (ps qs segs : List (List Char))
    (hp : segsMatch ps segs = true) (hq : segsMatch qs segs = true) :
    overlap ps qs = true := by
  induction segs generalizing ps qs with
  | nil =>
    cases ps <;> cases qs <;> simp_all [segsMatch, overlap]
  | cons s segs ih =>
    cases ps with
    | nil => simp [segsMatch] at hp
    | cons p ps =>
      cases qs with
      | nil => simp [segsMatch] at hq
      | cons q qs =>
        simp only [segsMatch, Bool.and_eq_true] at hp hq
        simp only [overlap, Bool.and_eq_true, Bool.or_eq_true]
        refine ⟨?_, ih ps qs hp.2 hq.2⟩
        by_cases h1 : (p.head? == some ':') = true
        · exact Or.inl (Or.inl h1)
        · by_cases h2 : (q.head? == some ':') = true
          · exact Or.inl (Or.inr h2)
          · right
            have e1 := segMatches_literal p s (by simpa using h1) hp.1
            have e2 := segMatches_literal q s (by simpa using h2) hq.1
            simp [e1, e2]

theorem filter_find_unique {α : Type} (p : α → Bool) (l : List α) (t : α)
    (hnd : l.Nodup) (hmem : t ∈ l) (hp : p t = true)
    (huniq : ∀ q ∈ l, p q = true → q = t) :
    l.filter p = [t] ∧ l.find? p = some t := by
  induction l with
  | nil => simp at hmem
  | cons a l ih =>
    rw [List.nodup_cons] at hnd
    by_cases hat : a = t
    · subst hat
      have hnone : l.filter p = [] := by
        rw [List.filter_eq_nil_iff]
        intro q hq hpq
        have := huniq q (List.mem_cons_of_mem _ hq) hpq
        exact hnd.1 (this ▸ hq)
      simp [List.filter, List.find?, hp, hnone]
    · have hpa : p a = false := by
        cases h : p a with
        | false => rfl
        | true => exact absurd (huniq a (List.mem_cons_self _ _) h) hat
      have hmem2 : t ∈ l := by
        rcases List.mem_cons.mp hmem with h | h
        · exact absurd h.symm hat
        · exact h
      have := ih hnd.2 hmem2 (fun q hq => huniq q (List.mem_cons_of_mem _ hq))
      simp [List.filter, List.find?, hpa, this]

set_option maxRecDepth 100000 in
theorem routes_pairwise_disjoint :
    ∀ t ∈ routes, ∀ q ∈ routes,
      overlap (splitSlash t.1.data) (splitSlash q.1.data) = true → q = t := by
  decide

set_option maxRecDepth 100000 in
theorem routes_nodup : routes.Nodup := by
  decide

set_option maxRecDepth 100000 in
theorem routes_documented :
    ∀ r ∈ routes, documentedPair r.1 = some (r.2.controller, r.2.templateUrl) := by
  decide

/-- Claim C1: A path that matches one of the ten registered patterns matches no
other registered pattern, and resolving it yields the controller/template pair
documented for that pattern. -/
theorem route_resolution (path pattern : String)
    (hmem : pattern ∈ routes.map (fun r => r.1))
    (hm : pathMatches pattern path = true) :
    matchingPatterns path = [pattern] ∧
    (resolve path).map (fun c => (c.controller, c.templateUrl)) = documentedPair pattern ∧
    (documentedPair pattern).isSome = true := by
  obtain ⟨r, hr, rfl⟩ := List.mem_map.mp hmem
  have huniq : ∀ q ∈ routes, pathMatches q.1 path = true → q = r := by
    intro q hq hqm
    exact routes_pairwise_disjoint r hr q hq (overlap_of_common_match _ _ _ hm hqm)
  have h := filter_find_unique (fun q => pathMatches q.1 path) routes r routes_nodup hr hm huniq
  have hdoc := routes_documented r hr
  refine ⟨?_, ?_, ?_⟩
  · simp [matchingPatterns, h.1]
  · simp [resolve, h.2, hdoc]
  · simp [hdoc]

theorem route_resolution_witness :
    matchingPatterns "/artist/5" = ["/artist/:id"] ∧
    (resolve "/artist/5").map (fun c => (c.controller, c.templateUrl))
      = documentedPair "/artist/:id" ∧
    (documentedPair "/artist/:id").isSome = true :=
  route_resolution "/artist/5" "/artist/:id" (by decide) (by decide)

/-! ## The list heading: content -/

theorem trailingEnters_eq_zero_iff (evs : List ViewEvent) :
    trailingEnters evs = 0 ↔ evs.getLast? ≠ some ViewEvent.enterView := by
  induction evs using List.reverseRecOn with
  | nil => simp [trailingEnters]
  | append_singleton evs e _ =>
    cases e with
    | enterView => simp [trailingEnters_snoc_enter]
    | leaveView => simp [trailingEnters_snoc_leave]

/-- Claim C2: After linking and any sequence of enter-view and leave-view events
the children of the host element are exactly the placeholder when the sequence
is empty or ends with leave-view, and exactly the rendered full content when it
ends with enter-view; the two contents differ, so exactly one of them occupies
the host; the full content is the same whatever the widget state it is rendered
into, so enter, leave, enter reproduces it. -/
theorem placeholder_or_full_content (env : Env) (data : HeadingData) (evs : List ViewEvent) :
    (run env data evs).children =
      (match evs.getLast? with
        | some ViewEvent.enterView => render env data
        | _ => placeholder env data) ∧
    (((run env data evs).children = placeholder env data ∧
        (run env data evs).children ≠ render env data) ∨
      ((run env data evs).children = render env data ∧
        (run env data evs).children ≠ placeholder env data)) ∧
    (run env data (evs ++ [ViewEvent.enterView, ViewEvent.leaveView, ViewEvent.enterView])).children
      = (run env data (evs ++ [ViewEvent.enterView])).children ∧
    (∀ w1 w2 : Widget, (setup env data w1).children = (setup env data w2).children) := by
  have hne := placeholder_ne_render env data
  refine ⟨?_, ?_, ?_, ?_⟩
  · rw [run_children]
    by_cases h : trailingEnters evs = 0
    · have h2 := (trailingEnters_eq_zero_iff evs).mp h
      rw [if_pos h]
      split
      · next heq => exact absurd heq h2
      · rfl
    · have h2 : evs.getLast? = some ViewEvent.enterView := by
        by_contra hc
        exact h ((trailingEnters_eq_zero_iff evs).mpr hc)
      rw [if_neg h, h2]
  · rw [run_children]
    by_cases h : trailingEnters evs = 0
    · rw [if_pos h]; exact Or.inl ⟨rfl, hne⟩
    · rw [if_neg h]; exact Or.inr ⟨rfl, fun h => hne h.symm⟩
  · have e3 : evs ++ [ViewEvent.enterView, ViewEvent.leaveView, ViewEvent.enterView]
        = ((evs ++ [ViewEvent.enterView]) ++ [ViewEvent.leaveView]) ++ [ViewEvent.enterView] := by
      simp
    rw [e3, run_children, run_children, trailingEnters_snoc_enter, trailingEnters_snoc_enter]
    simp
  · intro w1 w2
    simp [setup, removeChildNodes_eq_nil]

/-- Claim C6, counterexample: with the play-icon flag set and a heading whose
markup itself holds a play icon image, the host element holds two play icon
elements after the enter-view and one after the leave-view that follows. -/
theorem play_icon_in_heading_markup :
    iconHeadingData.showPlayIcon = true ∧
    playIconsIn
      (onView sampleEnv iconHeadingData (post sampleEnv iconHeadingData)
        ViewEvent.enterView).children = 2 ∧
    playIconsIn
      (onView sampleEnv iconHeadingData
        (onView sampleEnv iconHeadingData (post sampleEnv iconHeadingData)
          ViewEvent.enterView)
        ViewEvent.leaveView).children = 1 := by
  refine ⟨rfl, ?_, ?_⟩ <;> decide

/-- Claim C6, as the code has it: with the play-icon flag set, an enter-view adds
exactly one play icon element of its own, so the host then holds one play icon
plus those written in the heading and secondary-text markup, and after the
leave-view that follows it holds those written in the heading markup; when the
markup holds none, that is exactly one and then zero. -/
theorem play_icon_count (env : Env) (data : HeadingData) (w : Widget)
    (h : data.showPlayIcon = true) :
    playIconsIn (onView env data w ViewEvent.enterView).children
      = 1 + playIconsIn (env.parse data.heading)
          + (if truthy data.headingExt = true
              then playIconsIn (env.parse (data.headingExt.getD "")) else 0) ∧
    playIconsIn
      (onView env data (onView env data w ViewEvent.enterView) ViewEvent.leaveView).children
        = playIconsIn (env.parse data.heading) ∧
    (playIconsIn (env.parse data.heading) = 0 →
      (truthy data.headingExt = true →
        playIconsIn (env.parse (data.headingExt.getD "")) = 0) →
      playIconsIn (onView env data w ViewEvent.enterView).children = 1 ∧
      playIconsIn
        (onView env data (onView env data w ViewEvent.enterView)
          ViewEvent.leaveView).children = 0) := by
  have h1 : playIconsIn (onView env data w ViewEvent.enterView).children
      = 1 + playIconsIn (env.parse data.heading)
          + (if truthy data.headingExt = true
              then playIconsIn (env.parse (data.headingExt.getD "")) else 0) := by
    by_cases hx : truthy data.headingExt = true <;>
      by_cases hd : data.onDetailsClick.isSome = true <;>
      simp [onView, setup, removeChildNodes_eq_nil, render, playIconsIn, Node.playIcons,
        playIconsIn_append, h, hx, hd] <;>
      omega
  have h2 : playIconsIn
      (onView env data (onView env data w ViewEvent.enterView) ViewEvent.leaveView).children
        = playIconsIn (env.parse data.heading) := by
    simp [onView, setupPlaceholder, tearDown]
  refine ⟨h1, h2, ?_⟩
  intro hh hx
  rw [h1, h2, hh]
  refine ⟨?_, rfl⟩
  by_cases hxt : truthy data.headingExt = true
  · rw [if_pos hxt, hx hxt]
  · rw [if_neg hxt]

theorem play_icon_count_witness :
    playIconsIn
      (onView sampleEnv sampleData (post sampleEnv sampleData) ViewEvent.enterView).children
      = 1 + playIconsIn (sampleEnv.parse sampleData.heading)
          + (if truthy sampleData.headingExt = true
              then playIconsIn (sampleEnv.parse (sampleData.headingExt.getD "")) else 0) ∧
    playIconsIn
      (onView sampleEnv sampleData
        (onView sampleEnv sampleData (post sampleEnv sampleData) ViewEvent.enterView)
        ViewEvent.leaveView).children
        = playIconsIn (sampleEnv.parse sampleData.heading) :=
  ⟨(play_icon_count sampleEnv sampleData (post sampleEnv sampleData) rfl).1,
   (play_icon_count sampleEnv sampleData (post sampleEnv sampleData) rfl).2.1⟩

/-- Claim C7: The first child an enter-view puts below the host is the outer
span, and its `draggable` attribute is `true` exactly when a drag-payload
provider is configured and `false` exactly when none is. -/
theorem draggable_attribute (env : Env) (data : HeadingData) (w : Widget) :
    ((onView env data w ViewEvent.enterView).children.head?).map Node.tag
      = some (some "span") ∧
    (((onView env data w ViewEvent.enterView).children.head?).bind
        (fun n => n.getAttribute "draggable") = some "true"
      ↔ data.getDraggable.isSome = true) ∧
    (((onView env data w ViewEvent.enterView).children.head?).bind
        (fun n => n.getAttribute "draggable") = some "false"
      ↔ data.getDraggable = none) := by
  cases hg : data.getDraggable <;>
    simp [onView, setup, removeChildNodes_eq_nil, render, Node.tag, Node.getAttribute,
      Node.attrs, boolAttr, hg]

/-! ## The list heading: delegations and handlers -/

theorem length_replicate_setupDelegations (n : Nat) :
    ((List.replicate n setupDelegations).flatten).length = 4 * n := by
  induction n with
  | zero => rfl
  | succ n ih =>
    simp only [List.replicate_succ, List.flatten_cons, List.length_append, ih]
    simp [setupDelegations]
    omega

theorem trailingEnters_alternating (n : Nat) : trailingEnters (alternating n) = n % 2 := by
  induction n with
  | zero => rfl
  | succ n ih =>
    unfold alternating
    by_cases h : n % 2 = 0
    · rw [if_pos h, trailingEnters_snoc_enter, ih]; omega
    · rw [if_neg h, trailingEnters_snoc_leave]; omega

theorem trailingEnters_replicate (k : Nat) :
    trailingEnters (List.replicate k ViewEvent.enterView) = k := by
  induction k with
  | zero => rfl
  | succ k ih => rw [List.replicate_succ', trailingEnters_snoc_enter, ih]

/-- Claim C10: After linking and any sequence of enter-view and leave-view events
the host element carries four delegations for every enter-view since the most
recent leave-view: four in FullContent and none in Placeholder when the events
strictly alternate, and `4 * k` after `k` enter-views in a row. -/
theorem delegation_count (env : Env) (data : HeadingData) (evs : List ViewEvent) :
    (run env data evs).delegations.length = 4 * trailingEnters evs ∧
    (∀ n : Nat, (run env data (alternating n)).delegations.length
        = if n % 2 = 1 then 4 else 0) ∧
    (∀ n : Nat, (run env data (alternating n)).children
        = if n % 2 = 1 then render env data else placeholder env data) ∧
    (∀ k : Nat, (run env data (List.replicate k ViewEvent.enterView)).delegations.length
        = 4 * k) := by
  refine ⟨?_, ?_, ?_, ?_⟩
  · rw [run_delegations, length_replicate_setupDelegations]
  · intro n
    rw [run_delegations, length_replicate_setupDelegations, trailingEnters_alternating]
    split <;> omega
  · intro n
    rw [run_children, trailingEnters_alternating]
    by_cases h : n % 2 = 1
    · rw [if_neg (by omega), if_pos h]
    · rw [if_pos (by omega), if_neg h]
  · intro k
    rw [run_delegations, length_replicate_setupDelegations, trailingEnters_replicate]

/-- Claim C4: Once the enclosing scope is destroyed, whatever enter-view and
leave-view events came before, an event of any type on any target (the host
element or a node below it) runs no handler: no effect is produced and no
error is raised. -/
theorem no_handler_after_destroy (env : Env) (data : HeadingData) (evs : List ViewEvent)
    (e : Event) :
    (scopeDestroy (run env data evs)).delegations = [] ∧
    handlerQueue (scopeDestroy (run env data evs)) e = [] ∧
    dispatch env data (scopeDestroy (run env data evs)) e
      = { event := e, effects := [], error := none } := by
  have hd := scopeDestroy_run_delegations env data evs
  have hq := handlerQueue_of_no_delegations (scopeDestroy (run env data evs)) e hd
  refine ⟨hd, hq, ?_⟩
  simp [dispatch, hq, runQueue]

theorem flatten_replicate_singleton {α : Type} (k : Nat) (a : α) :
    (List.replicate k [a]).flatten = List.replicate k a := by
  induction k with
  | zero => rfl
  | succ k ih => simp [List.replicate_succ, ih]

theorem handlerQueue_single (w : Widget) (e : Event) (k : Nat) (n : Node)
    (hd : w.delegations = (List.replicate k setupDelegations).flatten)
    (hch : chain w.children e.target = some [n]) :
    handlerQueue w e = (List.replicate k (handlersFor setupDelegations e.eventType n)).flatten := by
  unfold handlerQueue
  rw [hch, hd]
  simp [handlersFor_replicate]

theorem runQueue_replicate (env : Env) (data : HeadingData) (h : HandlerKind) (e1 : Event)
    (effs : List Effect)
    (hrun : runHandler env data e1 h = { event := e1, effects := effs, error := none })
    (k : Nat) :
    runQueue env data e1 ((List.replicate k [h]).flatten)
      = { event := e1, effects := (List.replicate k effs).flatten, error := none } := by
  induction k with
  | zero => simp [runQueue]
  | succ k ih =>
    have hq : (List.replicate (k + 1) [h]).flatten = h :: (List.replicate k [h]).flatten := by
      simp [List.replicate_succ]
    rw [hq]
    simp only [runQueue, hrun, ih]
    simp [List.replicate_succ]

theorem runQueue_first (env : Env) (data : HeadingData) (h : HandlerKind) (e e1 : Event)
    (hs : List HandlerKind) (heq : runHandler env data e h = runHandler env data e1 h) :
    runQueue env data e (h :: hs) = runQueue env data e1 (h :: hs) := by
  simp [runQueue, heq]

theorem dragStart_run (env : Env) (data : HeadingData) (g dt : Nat) (e : Event)
    (hg : data.getDraggable = some g) (hdt : e.transfer = some dt) :
    runHandler env data e HandlerKind.spanDragStart
      = { event := { e with dataTransfer := some dt },
          effects := dragStartEffects env data g dt { e with dataTransfer := some dt },
          error := none } := by
  rcases e with ⟨et, tg, ox, oy, oe, dtf⟩
  cases oe with
  | none =>
    have h2 : dtf = some dt := by simpa [Event.transfer] using hdt
    subst h2
    simp [runHandler, hg, dragStartEffects]
  | some t =>
    have h2 : t = some dt := by simpa [Event.transfer] using hdt
    subst h2
    simp [runHandler, hg, dragStartEffects]

theorem transfer_of_assigned (e : Event) (dt : Nat) (hdt : e.transfer = some dt) :
    ({ e with dataTransfer := some dt } : Event).transfer = some dt := by
  rcases e with ⟨et, tg, ox, oy, oe, dtf⟩
  cases oe with
  | none => simp [Event.transfer]
  | some t => simpa [Event.transfer] using hdt

theorem chain_render_outer (env : Env) (data : HeadingData) :
    ∃ as cs, chain (render env data) [0] = some [Node.elem "span" "" as cs] := by
  simp [chain, render]

/-- Claim C3, counterexample: after two enter-views in a row the host holds
exactly the full content, and one click on the details button calls the
details handler twice. -/
theorem details_click_twice :
    (run sampleEnv sampleData [ViewEvent.enterView, ViewEvent.enterView]).children
      = render sampleEnv sampleData ∧
    nodeAt (run sampleEnv sampleData [ViewEvent.enterView, ViewEvent.enterView]).children [1]
      = some (Node.elem "button" "icon-details" [("title", "Details")] []) ∧
    (dispatch sampleEnv sampleData
        (run sampleEnv sampleData [ViewEvent.enterView, ViewEvent.enterView])
        (sampleEvent EventType.click [1])).effects
      = [Effect.onDetailsClick 2 (some 7), Effect.onDetailsClick 2 (some 7)] := by
  refine ⟨rfl, rfl, ?_⟩
  decide

/-- Claim C3, as the code has it: with a details-click handler configured, in
the FullContent state (the last event was an enter-view) the second child of
the host is the details button, and a click on it calls the details handler
with the bound model once for every enter-view since the most recent leave-view
and calls nothing else, in particular not the primary click handler; entered
from Placeholder, that is exactly once. -/
theorem details_click (env : Env) (data : HeadingData) (evs : List ViewEvent) (f : Nat)
    (e : Event) (hf : data.onDetailsClick = some f)
    (het : e.eventType = EventType.click) (htg : e.target = [1]) :
    nodeAt (run env data (evs ++ [ViewEvent.enterView])).children e.target
      = some (Node.elem "button" "icon-details" [("title", env.detailsText)] []) ∧
    dispatch env data (run env data (evs ++ [ViewEvent.enterView])) e
      = { event := e,
          effects := List.replicate (trailingEnters evs + 1)
            (Effect.onDetailsClick f data.model),
          error := none } ∧
    (trailingEnters evs = 0 →
      dispatch env data (run env data (evs ++ [ViewEvent.enterView])) e
        = { event := e, effects := [Effect.onDetailsClick f data.model], error := none }) := by
  have hc := run_enter_children env data evs
  have hd := run_enter_delegations env data evs
  have hch : chain (run env data (evs ++ [ViewEvent.enterView])).children e.target
      = some [Node.elem "button" "icon-details" [("title", env.detailsText)] []] := by
    simp [hc, htg, chain, render, hf]
  have hmain : dispatch env data (run env data (evs ++ [ViewEvent.enterView])) e
      = { event := e,
          effects := List.replicate (trailingEnters evs + 1)
            (Effect.onDetailsClick f data.model),
          error := none } := by
    have hh : handlersFor setupDelegations e.eventType
        (Node.elem "button" "icon-details" [("title", env.detailsText)] [])
        = [HandlerKind.buttonClick] := by
      rw [het]
      simp [handlersFor, setupDelegations, Node.matchesSelector, Node.tag]
    unfold dispatch
    rw [handlerQueue_single _ e _ _ hd hch, hh, runQueue_replicate env data HandlerKind.buttonClick e
      [Effect.onDetailsClick f data.model] (by simp [runHandler, hf]),
      flatten_replicate_singleton]
  refine ⟨?_, hmain, ?_⟩
  · simp [hc, htg, nodeAt, render, hf]
  · intro h0
    rw [hmain, h0]
    rfl

theorem details_click_witness :
    dispatch sampleEnv sampleData (run sampleEnv sampleData ([] ++ [ViewEvent.enterView]))
        (sampleEvent EventType.click [1])
      = { event := sampleEvent EventType.click [1],
          effects := List.replicate (trailingEnters [] + 1)
            (Effect.onDetailsClick 2 sampleData.model),
          error := none } :=
  (details_click sampleEnv sampleData [] 2 (sampleEvent EventType.click [1]) rfl rfl rfl).2.1

/-- Claim C8: With a drag-payload provider `g`, in the FullContent state (the
last event was an enter-view), a drag-start event on the outer span that
carries a transfer object `dt` runs the drag-start handler once for every
enter-view since the most recent leave-view, and every run calls the provider
with the model, stores under the key `text` of the transfer object the
serialization of `{data: g(model), channel: 'defaultchannel', offset: {x, y}}`
with the event's own offsets, and broadcasts the start notification with the
event, the channel name `defaultchannel` and that same object; a drag-end event
on the outer span broadcasts, as often, the end notification with the event and
the channel name.  This holds for every serializer. -/
theorem drag_payload (env : Env) (data : HeadingData) (evs : List ViewEvent) (g dt : Nat)
    (e e2 : Event) (hg : data.getDraggable = some g)
    (het : e.eventType = EventType.dragstart) (htg : e.target = [0])
    (hdt : e.transfer = some dt)
    (het2 : e2.eventType = EventType.dragend) (htg2 : e2.target = [0]) :
    dispatch env data (run env data (evs ++ [ViewEvent.enterView])) e
      = { event := { e with dataTransfer := some dt },
          effects :=
            (List.replicate (trailingEnters evs + 1)
              [ Effect.getDraggable g data.model,
                Effect.setData dt "text"
                  (env.toJson
                    { data := { fn := g, arg := data.model }, channel := "defaultchannel",
                      offset := { x := e.offsetX, y := e.offsetY } }),
                Effect.effectAllowed dt "copyMove",
                Effect.broadcast "ANGULAR_DRAG_START" { e with dataTransfer := some dt }
                  "defaultchannel"
                  (some { data := { fn := g, arg := data.model }, channel := "defaultchannel",
                          offset := { x := e.offsetX, y := e.offsetY } }) ]).flatten,
          error := none } ∧
    dispatch env data (run env data (evs ++ [ViewEvent.enterView])) e2
      = { event := e2,
          effects := List.replicate (trailingEnters evs + 1)
            (Effect.broadcast "ANGULAR_DRAG_END" e2 "defaultchannel" none),
          error := none } := by
  have hc := run_enter_children env data evs
  have hd := run_enter_delegations env data evs
  obtain ⟨as, cs, hch0⟩ := chain_render_outer env data
  have hh : ∀ t : EventType, handlersFor setupDelegations t (Node.elem "span" "" as cs)
      = match t with
        | EventType.click => [HandlerKind.spanClick]
        | EventType.dragstart => [HandlerKind.spanDragStart]
        | EventType.dragend => [HandlerKind.spanDragEnd] := by
    intro t
    cases t <;> simp [handlersFor, setupDelegations, Node.matchesSelector, Node.tag]
  constructor
  · have hch : chain (run env data (evs ++ [ViewEvent.enterView])).children e.target
        = some [Node.elem "span" "" as cs] := by rw [hc, htg, hch0]
    have hq : handlersFor setupDelegations e.eventType (Node.elem "span" "" as cs)
        = [HandlerKind.spanDragStart] := by rw [het]; exact hh _
    unfold dispatch
    rw [handlerQueue_single _ e _ _ hd hch, hq]
    have h1 := dragStart_run env data g dt e hg hdt
    have h2 := dragStart_run env data g dt { e with dataTransfer := some dt } hg
      (transfer_of_assigned e dt hdt)
    have hfirst : runQueue env data e
        ((List.replicate (trailingEnters evs + 1) [HandlerKind.spanDragStart]).flatten)
        = runQueue env data { e with dataTransfer := some dt }
          ((List.replicate (trailingEnters evs + 1) [HandlerKind.spanDragStart]).flatten) := by
      simp only [List.replicate_succ, List.flatten_cons, List.singleton_append]
      exact runQueue_first env data _ e _ _ (h1.trans h2.symm)
    rw [hfirst, runQueue_replicate env data HandlerKind.spanDragStart _ _ h2]
    rfl
  · have hch : chain (run env data (evs ++ [ViewEvent.enterView])).children e2.target
        = some [Node.elem "span" "" as cs] := by rw [hc, htg2, hch0]
    have hq : handlersFor setupDelegations e2.eventType (Node.elem "span" "" as cs)
        = [HandlerKind.spanDragEnd] := by rw [het2]; exact hh _
    unfold dispatch
    rw [handlerQueue_single _ e2 _ _ hd hch, hq]
    rw [runQueue_replicate env data HandlerKind.spanDragEnd e2
      [Effect.broadcast "ANGULAR_DRAG_END" e2 "defaultchannel" none] (by simp [runHandler]),
      flatten_replicate_singleton]

theorem drag_payload_witness :
    dispatch sampleEnv sampleData (run sampleEnv sampleData ([] ++ [ViewEvent.enterView]))
        (sampleEvent EventType.dragstart [0])
      = { event := { sampleEvent EventType.dragstart [0] with dataTransfer := some 9 },
          effects :=
            (List.replicate (trailingEnters [] + 1)
              [ Effect.getDraggable 3 sampleData.model,
                Effect.setData 9 "text"
                  (sampleEnv.toJson
                    { data := { fn := 3, arg := sampleData.model },
                      channel := "defaultchannel",
                      offset := { x := (sampleEvent EventType.dragstart [0]).offsetX,
                                  y := (sampleEvent EventType.dragstart [0]).offsetY } }),
                Effect.effectAllowed 9 "copyMove",
                Effect.broadcast "ANGULAR_DRAG_START"
                  { sampleEvent EventType.dragstart [0] with dataTransfer := some 9 }
                  "defaultchannel"
                  (some { data := { fn := 3, arg := sampleData.model },
                          channel := "defaultchannel",
                          offset := { x := (sampleEvent EventType.dragstart [0]).offsetX,
                                      y := (sampleEvent EventType.dragstart [0]).offsetY } }) ]
              ).flatten,
          error := none } :=
  (drag_payload sampleEnv sampleData [] 3 9 (sampleEvent EventType.dragstart [0])
    (sampleEvent EventType.dragend [0]) rfl rfl rfl rfl rfl rfl).1

/-! ## The list heading: clicks -/

theorem handlersFor_click (n : Node) :
    handlersFor setupDelegations EventType.click n =
      (if n.tag = some "span" then [HandlerKind.spanClick] else []) ++
      (if n.tag = some "button" then [HandlerKind.buttonClick] else []) := by
  cases n with
  | text s => simp [handlersFor, setupDelegations, Node.matchesSelector, Node.tag]
  | elem tag cls as cs =>
    by_cases h1 : tag = "span"
    · subst h1
      simp [handlersFor, setupDelegations, Node.matchesSelector, Node.tag]
    · by_cases h2 : tag = "button"
      · subst h2
        simp [handlersFor, setupDelegations, Node.matchesSelector, Node.tag]
      · simp [handlersFor, setupDelegations, Node.matchesSelector, Node.tag, h1, h2]

theorem runQueue_click (env : Env) (data : HeadingData) (f : Nat) (hf : data.onClick = some f)
    (e : Event) (nodes : List Node)
    (hb : ∀ n ∈ nodes, n.tag = some "button" → data.onDetailsClick.isSome = true) :
    (runQueue env data e
        ((nodes.map (handlersFor setupDelegations EventType.click)).flatten)).effects.count
        (Effect.onClick f data.model)
      = (nodes.filter (fun n => n.matchesSelector "span")).length ∧
    (runQueue env data e
        ((nodes.map (handlersFor setupDelegations EventType.click)).flatten)).error = none := by
  induction nodes with
  | nil => simp [runQueue]
  | cons n ns ih =>
    have ih2 := ih (fun m hm => hb m (List.mem_cons_of_mem _ hm))
    by_cases h1 : n.tag = some "span"
    · have h2 : ¬ n.tag = some "button" := by simp [h1]
      simp [handlersFor_click, h1, runQueue, runHandler, hf, Node.matchesSelector, ih2]
    · by_cases h2 : n.tag = some "button"
      · have hd := hb n (List.mem_cons_self _ _) h2
        obtain ⟨g, hg⟩ := Option.isSome_iff_exists.mp hd
        simp [handlersFor_click, h1, h2, runQueue, runHandler, hg, Node.matchesSelector, ih2]
      · simp [handlersFor_click, h1, h2, runQueue, runHandler, Node.matchesSelector, ih2]

theorem no_button_on_path (w : Widget) (p : List Nat) (nodes : List Node) (n : Node)
    (hch : chain w.children p = some nodes) (hn : n ∈ nodes)
    (hzero : buttonsOnPath w p = 0) : n.tag ≠ some "button" := by
  intro htag
  simp only [buttonsOnPath, hch] at hzero
  have hmem : n ∈ nodes.filter (fun n => n.matchesSelector "button") :=
    List.mem_filter.mpr ⟨hn, by simp [Node.matchesSelector, htag]⟩
  have := List.length_pos_of_mem hmem
  omega

/-- Claim C9: In the FullContent state entered from Placeholder, with a click
handler `f`, a click runs `f` once for every `span` between the target and the
host (provided no button without a details handler lies on that way, which
would raise first): twice with the bound model when the target is the inner
heading span or the muted secondary span, once when it is the outer span or
the play icon. -/
theorem click_runs_once_per_span (env : Env) (data : HeadingData) (evs : List ViewEvent)
    (f : Nat) (e : Event) (hf : data.onClick = some f) (h0 : trailingEnters evs = 0)
    (het : e.eventType = EventType.click) :
    ((data.onDetailsClick.isSome = true ∨
        buttonsOnPath (run env data (evs ++ [ViewEvent.enterView])) e.target = 0) →
      (dispatch env data (run env data (evs ++ [ViewEvent.enterView])) e).effects.count
          (Effect.onClick f data.model)
        = spansOnPath (run env data (evs ++ [ViewEvent.enterView])) e.target ∧
      (dispatch env data (run env data (evs ++ [ViewEvent.enterView])) e).error = none) ∧
    (e.target = [0, 0] →
      nodeAt (run env data (evs ++ [ViewEvent.enterView])).children e.target
        = some (Node.elem "span" "" [] (env.parse data.heading)) ∧
      dispatch env data (run env data (evs ++ [ViewEvent.enterView])) e
        = { event := e,
            effects := [Effect.onClick f data.model, Effect.onClick f data.model],
            error := none }) ∧
    (e.target = [0, 1] → truthy data.headingExt = true →
      nodeAt (run env data (evs ++ [ViewEvent.enterView])).children e.target
        = some (Node.elem "span" "muted" [] (env.parse (data.headingExt.getD ""))) ∧
      dispatch env data (run env data (evs ++ [ViewEvent.enterView])) e
        = { event := e,
            effects := [Effect.onClick f data.model, Effect.onClick f data.model],
            error := none }) ∧
    (e.target = [0] →
      (nodeAt (run env data (evs ++ [ViewEvent.enterView])).children e.target).map Node.tag
        = some (some "span") ∧
      dispatch env data (run env data (evs ++ [ViewEvent.enterView])) e
        = { event := e, effects := [Effect.onClick f data.model], error := none }) ∧
    (e.target = playIconPath data → data.showPlayIcon = true →
      nodeAt (run env data (evs ++ [ViewEvent.enterView])).children e.target
        = some (Node.elem "img" "play svg"
            [("alt", env.playText), ("src", env.playIconSrc)] []) ∧
      dispatch env data (run env data (evs ++ [ViewEvent.enterView])) e
        = { event := e, effects := [Effect.onClick f data.model], error := none }) := by
  have hc := run_enter_children env data evs
  have hd : (run env data (evs ++ [ViewEvent.enterView])).delegations = setupDelegations := by
    rw [run_enter_delegations, h0]
    simp
  refine ⟨?_, ?_, ?_, ?_, ?_⟩
  · intro hsafe
    cases hch : chain (run env data (evs ++ [ViewEvent.enterView])).children e.target with
    | none => simp [dispatch, handlerQueue, spansOnPath, hch, runQueue]
    | some nodes =>
      have hb : ∀ n ∈ nodes, n.tag = some "button" → data.onDetailsClick.isSome = true := by
        intro n hn htag
        rcases hsafe with hs | hs
        · exact hs
        · exact absurd htag (no_button_on_path _ _ nodes n hch hn hs)
      have hq := runQueue_click env data f hf e nodes hb
      simpa [dispatch, handlerQueue, spansOnPath, hch, hd, het] using hq
  · intro htg
    by_cases hx : truthy data.headingExt = true <;>
      by_cases hp : data.showPlayIcon = true <;>
      simp [dispatch, handlerQueue, hc, hd, htg, het, chain, nodeAt, render, hf, hx, hp,
        Node.children, handlersFor, setupDelegations, Node.matchesSelector, Node.tag,
        runQueue, runHandler]
  · intro htg hx
    by_cases hp : data.showPlayIcon = true <;>
      simp [dispatch, handlerQueue, hc, hd, htg, het, chain, nodeAt, render, hf, hx, hp,
        Node.children, handlersFor, setupDelegations, Node.matchesSelector, Node.tag,
        runQueue, runHandler]
  · intro htg
    simp [dispatch, handlerQueue, hc, hd, htg, het, chain, nodeAt, render, hf,
      Node.children, handlersFor, setupDelegations, Node.matchesSelector, Node.tag,
      runQueue, runHandler]
  · intro htg hp
    by_cases hx : truthy data.headingExt = true <;>
      simp [dispatch, handlerQueue, hc, hd, htg, het, chain, nodeAt, render, hf, hx, hp,
        playIconPath, Node.children, handlersFor, setupDelegations, Node.matchesSelector,
        Node.tag, runQueue, runHandler]

theorem click_runs_once_per_span_witness :
    dispatch sampleEnv sampleData (run sampleEnv sampleData ([] ++ [ViewEvent.enterView]))
        (sampleEvent EventType.click [0, 0])
      = { event := sampleEvent EventType.click [0, 0],
          effects := [Effect.onClick 1 sampleData.model, Effect.onClick 1 sampleData.model],
          error := none } :=
  ((click_runs_once_per_span sampleEnv sampleData [] 1 (sampleEvent EventType.click [0, 0])
    rfl rfl rfl).2.1 rfl).2

/-! ## The list heading: errors -/

theorem mem_handlerQueue (w : Widget) (e : Event) (h : HandlerKind)
    (hm : h ∈ handlerQueue w e) :
    ∃ nodes n g, chain w.children e.target = some nodes ∧ n ∈ nodes ∧ g ∈ w.delegations ∧
      g.eventType = e.eventType ∧ n.matchesSelector g.selector = true ∧ g.handler = h := by
  unfold handlerQueue at hm
  cases hch : chain w.children e.target with
  | none => simp [hch] at hm
  | some nodes =>
    simp only [hch, List.mem_flatten, List.mem_map] at hm
    obtain ⟨l, ⟨n, hn, rfl⟩, hl⟩ := hm
    simp only [handlersFor, List.mem_map, List.mem_filter, Bool.and_eq_true, beq_iff_eq] at hl
    obtain ⟨g, ⟨hg, hty, hsel⟩, rfl⟩ := hl
    exact ⟨nodes, n, g, rfl, hn, hg, hty, hsel, rfl⟩

theorem runHandler_event (env : Env) (data : HeadingData) (e : Event) (h : HandlerKind) :
    (runHandler env data e h).event.transfer = e.transfer := by
  rcases e with ⟨et, tg, ox, oy, oe, dtf⟩
  cases h with
  | spanClick => cases hc : data.onClick <;> simp [runHandler, hc]
  | buttonClick => cases hc : data.onDetailsClick <;> simp [runHandler, hc]
  | spanDragEnd => simp [runHandler]
  | spanDragStart =>
    cases hg : data.getDraggable <;> cases oe with
    | none => cases dtf <;> simp [runHandler, hg, Event.transfer]
    | some t => cases t <;> simp [runHandler, hg, Event.transfer]

theorem runQueue_no_error (env : Env) (data : HeadingData) (q : List HandlerKind) (e : Event)
    (hsafe : ∀ h ∈ q, ∀ e2 : Event, e2.transfer = e.transfer →
      (runHandler env data e2 h).error = none) :
    (runQueue env data e q).error = none := by
  induction q generalizing e with
  | nil => simp [runQueue]
  | cons h hs ih =>
    have h1 := hsafe h (List.mem_cons_self _ _) e rfl
    have h2 := ih (runHandler env data e h).event (fun k hk e2 he2 =>
      hsafe k (List.mem_cons_of_mem _ hk) e2 (he2.trans (runHandler_event env data e h)))
    simp [runQueue, h1, h2]

theorem span_on_path (w : Widget) (p : List Nat) (nodes : List Node) (n : Node)
    (hch : chain w.children p = some nodes) (hn : n ∈ nodes)
    (hs : n.matchesSelector "span" = true) : 0 < spansOnPath w p := by
  unfold spansOnPath
  rw [hch]
  exact List.length_pos_of_mem (List.mem_filter.mpr ⟨hn, hs⟩)

theorem button_on_path (w : Widget) (p : List Nat) (nodes : List Node) (n : Node)
    (hch : chain w.children p = some nodes) (hn : n ∈ nodes)
    (hs : n.matchesSelector "button" = true) : 0 < buttonsOnPath w p := by
  unfold buttonsOnPath
  rw [hch]
  exact List.length_pos_of_mem (List.mem_filter.mpr ⟨hn, hs⟩)

theorem mem_replicate_setupDelegations (k : Nat) (g : Delegation)
    (hg : g ∈ (List.replicate k setupDelegations).flatten) : g ∈ setupDelegations := by
  simp only [List.mem_flatten, List.mem_replicate] at hg
  obtain ⟨l, ⟨_, rfl⟩, hl⟩ := hg
  exact hl

/-- Claim C5, counterexample: in the FullContent state a click on the outer span
raises an error when the click handler is absent; a drag-start on the outer
span raises one when the drag-payload provider is absent or when the event
carries no transfer object; and with no details-click handler a click on a
button written in the heading markup raises one although the click handler is
present. -/
theorem absent_handler_raises :
    (dispatch sampleEnv dataWithoutOnClick
        (run sampleEnv dataWithoutOnClick [ViewEvent.enterView])
        (sampleEvent EventType.click [0])).error
      = some (Error.typeError "data.onClick") ∧
    (dispatch sampleEnv dataWithoutGetDraggable
        (run sampleEnv dataWithoutGetDraggable [ViewEvent.enterView])
        (sampleEvent EventType.dragstart [0])).error
      = some (Error.typeError "data.getDraggable") ∧
    (dispatch sampleEnv sampleData (run sampleEnv sampleData [ViewEvent.enterView])
        syntheticDragStart).error
      = some (Error.typeError "e.dataTransfer") ∧
    (dispatch sampleEnv buttonHeadingData
        (run sampleEnv buttonHeadingData [ViewEvent.enterView])
        (sampleEvent EventType.click [0, 0, 0])).error
      = some (Error.typeError "data.onDetailsClick") := by
  refine ⟨?_, ?_, ?_, ?_⟩ <;> decide

/-- Claim C5, as the code has it: after linking and any enter-view and
leave-view events, an event is handled without raising an error provided that
every handler it reaches is there: the click handler when a click passes a
span, the details-click handler when a click passes a button, and the
drag-payload provider together with a transfer object on the event when a
drag-start passes a span.  Nothing is asked of the model, and nothing at all
for drag-end events. -/
theorem handlers_raise_no_error (env : Env) (data : HeadingData) (evs : List ViewEvent)
    (e : Event)
    (hclick : e.eventType = EventType.click →
      0 < spansOnPath (run env data evs) e.target → data.onClick.isSome = true)
    (hbutton : e.eventType = EventType.click →
      0 < buttonsOnPath (run env data evs) e.target → data.onDetailsClick.isSome = true)
    (hdrag : e.eventType = EventType.dragstart →
      0 < spansOnPath (run env data evs) e.target →
        data.getDraggable.isSome = true ∧ e.transfer.isSome = true) :
    (dispatch env data (run env data evs) e).error = none := by
  unfold dispatch
  apply runQueue_no_error
  intro h hm e2 he2
  obtain ⟨nodes, n, g, hch, hn, hg, hty, hsel, rfl⟩ := mem_handlerQueue _ _ _ hm
  rw [run_delegations] at hg
  have hg2 := mem_replicate_setupDelegations _ g hg
  simp only [setupDelegations, List.mem_cons, List.mem_singleton, List.not_mem_nil,
    or_false] at hg2
  rcases hg2 with rfl | rfl | rfl | rfl
  · have hs := hclick hty.symm (span_on_path _ _ nodes n hch hn hsel)
    obtain ⟨f, hf⟩ := Option.isSome_iff_exists.mp hs
    simp [runHandler, hf]
  · have hs := hbutton hty.symm (button_on_path _ _ nodes n hch hn hsel)
    obtain ⟨f, hf⟩ := Option.isSome_iff_exists.mp hs
    simp [runHandler, hf]
  · obtain ⟨hs, ht⟩ := hdrag hty.symm (span_on_path _ _ nodes n hch hn hsel)
    obtain ⟨f, hf⟩ := Option.isSome_iff_exists.mp hs
    obtain ⟨dt, hdt⟩ := Option.isSome_iff_exists.mp ht
    rw [hdt] at he2
    rcases e2 with ⟨et, tg, ox, oy, oe, dtf⟩
    cases oe with
    | none =>
      have : dtf = some dt := by simpa [Event.transfer] using he2
      subst this
      simp [runHandler, hf]
    | some t =>
      have : t = some dt := by simpa [Event.transfer] using he2
      subst this
      simp [runHandler, hf]
  · simp [runHandler]

theorem handlers_raise_no_error_witness :
    (dispatch sampleEnv sparseData (run sampleEnv sparseData [ViewEvent.enterView])
      (sampleEvent EventType.click [0])).error = none :=
  handlers_raise_no_error sampleEnv sparseData [ViewEvent.enterView]
    (sampleEvent EventType.click [0]) (fun _ _ => rfl)
    (fun _ h => absurd h (by decide)) (fun h => absurd h (by decide))

end Music
